import Mathlib

/-!
Verification of the simple-chat server core (src/server) against its
natural-language specification.

The SQLite database is embedded as an explicit record (`DB`); each query
function from `src/server/database.py` becomes a pure function threading
that record.  Wall-clock `CURRENT_TIMESTAMP` is modelled by a counter in
the state that advances on every insert, so timestamps of stored messages
are strictly increasing (real time is non-decreasing; distinct seconds).
A Python function that can raise an exception on the modelled paths is
embedded with an `Option`/`PyResult` return, `none`/`exn` standing for the
raised exception.
-/

/-! Error codes from `src/configs/config.py`. -/

def SUCCESS : Nat := 0
def USER_TAKEN : Nat := 1
def USER_DNE : Nat := 2
def WRONG_PASS : Nat := 3
def DB_ERROR : Nat := 4
def UNSUPPORTED_VERSION : Nat := 5
def UNKNOWN_COMMAND : Nat := 6
def ID_DNE : Nat := 7

/-- Modelled from the spec: `src/configs/config.py` stops its error
enumeration at `ID_DNE = 7`, yet the constant `USER_LOGGED_ON` is used by
all three login handlers and imported from `configs.config` by the tests;
its definition is missing from the sources, so its value is taken from the
spec's fixed enumeration (`USER_LOGGED_ON = 8`). -/
def USER_LOGGED_ON : Nat := 8

/-! Page codes from `src/configs/config.py`. -/

def REG_PG : Nat := 10
def LGN_PG : Nat := 11
def MSG_PG : Nat := 12
def CONVO_PG : Nat := 13

def SUPPORTED_VERSIONS : List String := ["1.0"]

/-! Data model: rows of the `accounts` and `messages` tables
(`initialize_db` in `src/server/database.py`).  The unused `created_at`
column of `accounts` is omitted; `deactivated`/`unread` INTEGER 0/1 flags
are Booleans here and are rendered back to 0/1 where the code prints
them. -/

structure Account where
  username : String
  password_hash : String
  deactivated : Bool
deriving DecidableEq, Repr

structure Message where
  id : Int
  sender : String
  recipient : String
  text : String
  timestamp : Nat
  unread : Bool
deriving DecidableEq, Repr

/-- The database state.  `nextId` models the `AUTOINCREMENT` sequence of
the `messages` table (never reused, strictly increasing); `clock` models
`CURRENT_TIMESTAMP` at the next insert. -/
structure DB where
  accounts : List Account
  messages : List Message
  nextId : Int
  clock : Nat
deriving DecidableEq, Repr

/-! Generic key-based insertion sort, used to embed the SQL `ORDER BY`
clauses.  All `ORDER BY` keys in the embedded queries are distinct on the
inputs the claims touch, so any correct sort matches SQLite's output. -/

def insertSorted {α β : Type} [LinearOrder β] (key : α → β) (x : α) : List α → List α
  | [] => [x]
  | y :: ys => if key x ≤ key y then x :: y :: ys else y :: insertSorted key x ys

def sortByKey {α β : Type} [LinearOrder β] (key : α → β) (l : List α) : List α :=
  l.foldr (insertSorted key) []

theorem mem_insertSorted {α β : Type} [LinearOrder β] {key : α → β} {x a : α}
    {l : List α} : a ∈ insertSorted key x l ↔ a = x ∨ a ∈ l := by
  induction l with
  | nil => simp [insertSorted]
  | cons y ys ih =>
    simp only [insertSorted]
    split
    · simp [List.mem_cons]
    · simp only [List.mem_cons, ih]
      tauto

theorem mem_sortByKey {α β : Type} [LinearOrder β] {key : α → β} {a : α}
    {l : List α} : a ∈ sortByKey key l ↔ a ∈ l := by
  induction l with
  | nil => simp [sortByKey]
  | cons y ys ih =>
    simp only [sortByKey, List.foldr] at ih ⊢
    simp [mem_insertSorted, ih]

theorem pairwise_insertSorted {α β : Type} [LinearOrder β] {key : α → β} (x : α)
    {l : List α} (h : l.Pairwise fun a b => key a ≤ key b) :
    (insertSorted key x l).Pairwise fun a b => key a ≤ key b := by
  induction l with
  | nil => simp [insertSorted]
  | cons y ys ih =>
    rcases List.pairwise_cons.mp h with ⟨hy, hys⟩
    simp only [insertSorted]
    split
    · refine List.pairwise_cons.mpr ⟨?_, h⟩
      intro b hb
      rcases List.mem_cons.mp hb with hb | hb
      · subst hb; assumption
      · exact le_trans (by assumption) (hy b hb)
    · refine List.pairwise_cons.mpr ⟨?_, ih hys⟩
      intro b hb
      rcases mem_insertSorted.mp hb with hb | hb
      · subst hb; exact le_of_not_le (by assumption)
      · exact hy b hb

theorem pairwise_sortByKey {α β : Type} [LinearOrder β] (key : α → β)
    (l : List α) : (sortByKey key l).Pairwise fun a b => key a ≤ key b := by
  induction l with
  | nil => simp [sortByKey]
  | cons y ys ih => exact pairwise_insertSorted y ih

/-! The database layer, from `src/server/database.py`. -/

/-- `SELECT * FROM accounts WHERE username = ?` (the primary key makes the
first match the only match). -/
def lookupAccount (db : DB) (username : String) : Option Account :=
  db.accounts.find? (fun a => a.username == username)

/-- `register_account` (database.py 59-88). -/
def register_account (db : DB) (username password : String) :
    DB × Bool × Nat :=
  if (lookupAccount db username).isSome then
    (db, false, USER_TAKEN)
  else
    ({ db with accounts := db.accounts ++ [⟨username, password, false⟩] },
     true, SUCCESS)

/-- `verify_login` (database.py 90-116). -/
def verify_login (db : DB) (username password : String) : Bool × Nat :=
  match lookupAccount db username with
  | none => (false, USER_DNE)
  | some row =>
    if row.deactivated then (false, USER_DNE)
    else if password == row.password_hash then (true, SUCCESS)
    else (false, WRONG_PASS)

/-- `verify_valid_recipient` (database.py 118-134): returns
`abs(1 - row["deactivated"])`.  When no account row exists, the Python
code subscripts `None` and raises `TypeError`; `none` models that raised
exception. -/
def verify_valid_recipient (db : DB) (recipient : String) : Option Nat :=
  (lookupAccount db recipient).map (fun row => if row.deactivated then 0 else 1)

/-- `deactivate_account` (database.py 136-163). -/
def deactivate_account (db : DB) (username : String) : DB × Nat :=
  match lookupAccount db username with
  | some _ =>
    ({ db with accounts := db.accounts.map (fun a =>
        if a.username == username then { a with deactivated := true } else a) },
     SUCCESS)
  | none => (db, USER_DNE)

/-- Messages sent by `sender` to `recipient` (rows of the per-sender
`GROUP BY` group in `get_conversations`). -/
def msgsFrom (db : DB) (recipient sender : String) : List Message :=
  db.messages.filter (fun m => m.recipient == recipient && m.sender == sender)

/-- `COUNT(CASE WHEN unread = 1 THEN 1 END)` for one group. -/
def unreadCount (db : DB) (recipient sender : String) : Nat :=
  ((msgsFrom db recipient sender).filter (fun m => m.unread)).length

def maxTime (l : List Message) : Nat :=
  l.foldl (fun acc m => max acc m.timestamp) 0

/-- `MAX(timestamp)` over every message of the group, read or unread. -/
def lastMsgTime (db : DB) (recipient sender : String) : Nat :=
  maxTime (msgsFrom db recipient sender)

/-- `MAX(timestamp)` over the unread messages of the group only; this is
what the spec's phrase "most-recent-unread-activity" denotes.  It is not
computed by the code. -/
def lastUnreadTime (db : DB) (recipient sender : String) : Nat :=
  maxTime ((msgsFrom db recipient sender).filter (fun m => m.unread))

/-- The distinct senders of messages addressed to `recipient` (the
`GROUP BY sender` groups). -/
def sendersTo (db : DB) (recipient : String) : List String :=
  ((db.messages.filter (fun m => m.recipient == recipient)).map
    (fun m => m.sender)).dedup

/-- The first query of `get_conversations` (database.py 189-197): one row
`(sender, unread_count, last_msg_time)` per sender group, kept when
`unread_count > 0` (`HAVING`), ordered by `last_msg_time DESC`. -/
def unreadConvos (db : DB) (recipient : String) :
    List (String × Nat × Nat) :=
  sortByKey (fun t => OrderDual.toDual t.2.2)
    ((sendersTo db recipient).filterMap (fun s =>
      if 0 < unreadCount db recipient s then
        some (s, unreadCount db recipient s, lastMsgTime db recipient s)
      else none))

/-- `get_conversations` (database.py 169-226): unread-bearing senders by
most recent message first, then every other account (excluding the
recipient and those senders) alphabetically with a zero count. -/
def get_conversations (db : DB) (recipient : String) : List (String × Nat) :=
  let unreadRows := unreadConvos db recipient
  let unreadSenders := unreadRows.map (fun t => t.1)
  let others := sortByKey (fun a => a.username)
    (db.accounts.filter (fun a =>
      a.username != recipient && !(unreadSenders.contains a.username)))
  unreadRows.map (fun t => (t.1, t.2.1)) ++ others.map (fun a => (a.username, 0))

/-- `mark_message_as_read` (database.py 254-278): update the row to read
when it exists, silently do nothing otherwise. -/
def mark_message_as_read (db : DB) (msg_id : Int) : DB :=
  if (db.messages.find? (fun m => m.id == msg_id)).isSome then
    { db with messages := db.messages.map (fun m =>
        if m.id == msg_id then { m with unread := false } else m) }
  else db

/-- `store_message` (database.py 285-307): insert with the next
auto-increment id, `unread` defaulting to 1, and return the new id. -/
def store_message (db : DB) (sender recipient text : String) : DB × Int :=
  ({ db with
      messages := db.messages ++
        [⟨db.nextId, sender, recipient, text, db.clock, true⟩],
      nextId := db.nextId + 1,
      clock := db.clock + 1 },
   db.nextId)

/-- `get_recent_messages` (database.py 309-363): select the conversation
between the two users (`id < oldest_msg_id` unless the sentinel `-1`),
newest `limit` rows by id, mark the fetched rows addressed to `user1` as
read, and return the fetched rows oldest-first.  The Python function
returns only this list of rows; it returns no unread count. -/
def get_recent_messages (db : DB) (user1 user2 : String) (oldest_msg_id : Int)
    (limit : Nat) : DB × List Message :=
  let convo := db.messages.filter (fun m =>
    (m.sender == user1 && m.recipient == user2) ||
    (m.sender == user2 && m.recipient == user1))
  let eligible :=
    if oldest_msg_id == -1 then convo
    else convo.filter (fun m => decide (m.id < oldest_msg_id))
  let fetched := (sortByKey (fun m => OrderDual.toDual m.id) eligible).take limit
  let ids := (fetched.filter (fun m => m.recipient == user1)).map (fun m => m.id)
  let db1 :=
    if ids.isEmpty then db
    else { db with messages := db.messages.map (fun m =>
      if ids.contains m.id then { m with unread := false } else m) }
  (db1, fetched.reverse)

/-- `delete_message` (database.py 365-398). -/
def delete_message (db : DB) (message_id : Int) :
    DB × Option (String × String × Bool) × Nat :=
  match db.messages.find? (fun m => m.id == message_id) with
  | none => (db, none, ID_DNE)
  | some m =>
    ({ db with messages := db.messages.filter (fun x => !(x.id == message_id)) },
     some (m.recipient, m.sender, m.unread), SUCCESS)

/-! The protocol layer.  `ServerState` couples the database with the
`active_clients` registry of `src/server/utils.py` (username bound to a
delivery sink; sockets are modelled by numeric ids).  Push delivery
(`sock.sendall` of a frame, or appending to an rpc queue) is modelled by
returning the list of attempted pushes. -/

/-- Python's `str.startswith`, on the character data of the strings. -/
def strStartsWith (s pre : String) : Bool :=
  pre.data.isPrefixOf s.data

def digitsToNat (l : List Char) : Option Nat :=
  if l.isEmpty then none
  else if l.all (fun c => c.isDigit) then
    some (l.foldl (fun acc c => acc * 10 + (c.toNat - 48)) 0)
  else none

/-- Python's `int(s)` on a plain decimal numeral with an optional sign,
`none` modelling the raised `ValueError`. -/
def pyInt? (s : String) : Option Int :=
  match s.data with
  | '-' :: rest => (digitsToNat rest).map (fun n => -(n : Int))
  | l => (digitsToNat l).map (fun n => (n : Int))

structure Push where
  target : String
  frame : String
deriving DecidableEq, Repr

structure ServerState where
  db : DB
  active : List (String × Nat)
deriving DecidableEq, Repr

/-- `username in active_clients`. -/
def isActive (st : ServerState) (username : String) : Bool :=
  st.active.any (fun e => e.1 == username)

/-- `add_active_client` (utils.py): dict assignment, replacing the sink of
an existing entry and appending a new entry otherwise. -/
def add_active_client (st : ServerState) (username : String) (sock : Nat) :
    ServerState :=
  if isActive st username then
    { st with active := st.active.map (fun e =>
        if e.1 == username then (username, sock) else e) }
  else
    { st with active := st.active ++ [(username, sock)] }

/-- `remove_active_client` (utils.py). -/
def remove_active_client (st : ServerState) (username : String) : ServerState :=
  { st with active := st.active.filter (fun e => e.1 != username) }

/-- Result of running one Python handler: `exn` models an exception
escaping the handler. -/
inductive PyResult (α : Type) where
  | ok (val : α)
  | exn
deriving DecidableEq, Repr

def PyResult.map {α β : Type} (f : α → β) : PyResult α → PyResult β
  | .ok a => .ok (f a)
  | .exn => .exn

/-! Handlers of `src/server/protocols/custom_protocol.py`.  Argument lists
arrive already tokenized (`parse_message` splits the frame on blanks and
upper-cases the command); handlers read positional arguments just as the
Python code subscripts `args`. -/

/-- `handle_get_conversations` (custom_protocol.py 68-78). -/
def handle_get_conversations (st : ServerState) (recipient : String)
    (page_code : Nat) : String :=
  (get_conversations st.db recipient).foldl
    (fun acc p => acc ++ " " ++ p.1 ++ " " ++ toString p.2)
    ("1.0 USERS " ++ toString page_code ++ " " ++ recipient)

/-- `handle_login` (custom_protocol.py 54-66): verify credentials, then
reject outright when the username is already bound in the registry. -/
def handle_login (st : ServerState) (args : List String) : String :=
  let username := args.getD 0 ""
  let password := args.getD 1 ""
  let res := verify_login st.db username password
  if isActive st username then "1.0 ERROR " ++ toString USER_LOGGED_ON
  else if res.1 then handle_get_conversations st username LGN_PG
  else "1.0 ERROR " ++ toString res.2

/-- `handle_create` (custom_protocol.py 32-52): register, push `PUSH_USER`
to every other active user, answer with the conversation summary. -/
def handle_create (st : ServerState) (args : List String) :
    ServerState × String × List Push :=
  let username := args.getD 0 ""
  let password := args.getD 1 ""
  let res := register_account st.db username password
  if res.2.1 then
    let st1 := { st with db := res.1 }
    let pushes := st.active.filterMap (fun e =>
      if e.1 != username then some ⟨e.1, "1.0 PUSH_USER " ++ username⟩ else none)
    (st1, handle_get_conversations st1 username REG_PG, pushes)
  else
    (st, "1.0 ERROR " ++ toString res.2.2, [])

/-- `handle_send_message` (custom_protocol.py 128-159).  `exn` is the
`TypeError` that `verify_valid_recipient` raises when the recipient has no
account row; it escapes the handler uncaught. -/
def handle_send_message (st : ServerState) (args : List String) :
    PyResult (ServerState × String × List Push) :=
  let sender := args.getD 0 ""
  let recipient := args.getD 1 ""
  match verify_valid_recipient st.db recipient with
  | none => .exn
  | some valid =>
    let next :=
      if valid != 0 then
        let text := String.intercalate " " (args.drop 2)
        let res := store_message st.db sender recipient text
        ({ st with db := res.1 }, res.2, text)
      else (st, (-1 : Int), "")
    let push_message :=
      "1.0 PUSH_MSG " ++ sender ++ " " ++ toString next.2.1 ++ " " ++
        next.2.2 ++ "\n"
    let pushes :=
      if isActive next.1 recipient then [⟨recipient, push_message⟩] else []
    .ok (next.1, "1.0 ACK " ++ toString next.2.1, pushes)

/-- `handle_delete_messages` (custom_protocol.py 161-186).  `exn` is the
`ValueError` of `int(args[0])` on a non-numeric argument. -/
def handle_delete_messages (st : ServerState) (args : List String) :
    PyResult (ServerState × String × List Push) :=
  match pyInt? (args.getD 0 "") with
  | none => .exn
  | some id =>
    let res := delete_message st.db id
    let st1 := { st with db := res.1 }
    match res.2.1 with
    | some info =>
      if info.1 != "" then
        let response := "1.0 DEL_MSG " ++ toString id ++ " " ++ info.2.1 ++
          " " ++ toString (if info.2.2 then 1 else 0)
        let pushes :=
          if isActive st1 info.1 then [⟨info.1, response⟩] else []
        .ok (st1, response, pushes)
      else
        .ok (st1, "1.0 ERROR " ++ toString res.2.2, [])
    | none => .ok (st1, "1.0 ERROR " ++ toString res.2.2, [])

/-- `handle_delete_account` (custom_protocol.py 188-203). -/
def handle_delete_account (st : ServerState) (args : List String) :
    ServerState × String × List Push :=
  let username := args.getD 0 ""
  let res := deactivate_account st.db username
  if res.2 == SUCCESS then
    (remove_active_client { st with db := res.1 } username, "1.0 DEL_ACC", [])
  else
    ({ st with db := res.1 }, "1.0 ERROR " ++ toString res.2, [])

/-- `handle_received_message` (custom_protocol.py 205-214): mark the
message read and return no response at all. -/
def handle_received_message (st : ServerState) (args : List String) :
    PyResult (ServerState × Option String × List Push) :=
  match pyInt? (args.getD 0 "") with
  | none => .exn
  | some id => .ok ({ st with db := mark_message_as_read st.db id }, none, [])

/-- `process_message` (custom_protocol.py 216-240) on a tokenized frame:
version check, then dispatch on the upper-cased command.

The `READ` branch (`handle_get_chat_history`, custom_protocol.py 80-126)
always raises with the sources as given: it unpacks
`unreads, history = database.get_recent_messages(...)`, but that function
returns a single list of row dicts (database.py 360-363), so the unpacking
raises `ValueError` for any fetch of other than two rows, and for exactly
two rows `history` is bound to a row dict and `history[0]` raises
`KeyError`.  Its embedding is therefore `exn`; the underlying query is
embedded and verified as `get_recent_messages`. -/
def process_parsed (st : ServerState) (version command : String)
    (args : List String) : PyResult (ServerState × Option String × List Push) :=
  if !(SUPPORTED_VERSIONS.contains version) then
    .ok (st, some ("1.0 ERROR " ++ toString UNSUPPORTED_VERSION), [])
  else if command == "CREATE" then
    let res := handle_create st args
    .ok (res.1, some res.2.1, res.2.2)
  else if command == "LOGIN" then
    .ok (st, some (handle_login st args), [])
  else if command == "READ" then
    .exn
  else if command == "SEND" then
    (handle_send_message st args).map (fun r => (r.1, some r.2.1, r.2.2))
  else if command == "DEL_MSG" then
    (handle_delete_messages st args).map (fun r => (r.1, some r.2.1, r.2.2))
  else if command == "DEL_ACC" then
    let res := handle_delete_account st args
    .ok (res.1, some res.2.1, res.2.2)
  else if command == "REC_MSG" then
    handle_received_message st args
  else
    .ok (st, some ("1.0 ERROR " ++ toString UNKNOWN_COMMAND), [])

/-- One frame through `service_connection` (server.py 63-71): process it,
then, for a `LOGIN`/`CREATE` whose response is not a `1.0 ERROR` frame,
bind the username to this connection in the registry.  `service_connection`
wraps no try/except around this path, so an `exn` escaping here kills the
selector loop of the server process. -/
def service_parsed (st : ServerState) (sock : Nat) (version command : String)
    (args : List String) : PyResult (ServerState × Option String × List Push) :=
  match process_parsed st version command args with
  | .exn => .exn
  | .ok res =>
    if (command == "LOGIN" || command == "CREATE") &&
        !(strStartsWith (res.2.1.getD "") "1.0 ERROR") then
      .ok (add_active_client res.1 (args.getD 0 "") sock, res.2.1, res.2.2)
    else
      .ok res

/-! The JSON wire family, from `src/server/protocols/json_protocol.py`.
Only the pieces C3 rests on are embedded: `wrap_message` (the canonical
2.0 framing) and `handle_login`.  `json.dumps` is embedded for the values
the handlers feed it (an object with an `opcode` string and a `data` array
of strings and integers, none containing characters that need escaping). -/

inductive JVal where
  | js (s : String)
  | jn (n : Nat)
deriving DecidableEq, Repr

def JVal.render : JVal → String
  | .js s => "\"" ++ s ++ "\""
  | .jn n => toString n

def PROTOCOL_VERSION : String := "2.0"

/-- `wrap_message` (json_protocol.py 16-20):
`"2.0 " + json.dumps(\x7b"opcode": opcode, "data": data\x7d)`. -/
def wrap_message (opcode : String) (data : List JVal) : String :=
  PROTOCOL_VERSION ++ " \x7b\"opcode\": \"" ++ opcode ++ "\", \"data\": [" ++
    String.intercalate ", " (data.map JVal.render) ++ "]\x7d"

/-- `handle_get_conversations` (json_protocol.py 83-92). -/
def json_handle_get_conversations (st : ServerState) (recipient : String)
    (page_code : Nat) : String :=
  wrap_message "USERS"
    ([JVal.js (toString page_code), JVal.js recipient] ++
      (get_conversations st.db recipient).foldr
        (fun p acc => JVal.js p.1 :: JVal.js (toString p.2) :: acc) [])

/-- `handle_login` (json_protocol.py 67-81).  Note the final branch of the
source: a credential failure is answered with the literal f-string
`"1.0 ERROR \x7berrno\x7d"`, a 1.0 custom-format frame, unlike every other
error path of the module, which goes through `wrap_message`. -/
def json_handle_login (st : ServerState) (data : List String) : String :=
  let username := data.getD 0 ""
  let password := data.getD 1 ""
  let res := verify_login st.db username password
  if isActive st username then wrap_message "ERROR" [JVal.jn USER_LOGGED_ON]
  else if res.1 then json_handle_get_conversations st username LGN_PG
  else "1.0 ERROR " ++ toString res.2

/-! Operation sequences over the custom-protocol surface, for claims about
the server's lifetime.  An `exn` outcome kills the server process (no
handler catches it), so no later operation runs; leaving the state
unchanged on `exn` is conservative and does not affect the `nextId`
counter, which no handler ever decreases. -/

structure Op where
  cmd : String
  args : List String
  sock : Nat
deriving DecidableEq, Repr

def runOp (st : ServerState) (op : Op) : ServerState :=
  match service_parsed st op.sock "1.0" op.cmd op.args with
  | .ok res => res.1
  | .exn => st

def runOps (st : ServerState) (ops : List Op) : ServerState :=
  ops.foldl runOp st

/-- The state a successful `Send` leaves behind. -/
def afterSend (st : ServerState) (sender recipient : String)
    (rest : List String) : ServerState :=
  { st with db := (store_message st.db sender recipient
      (String.intercalate " " rest)).1 }

/-! Claim theorems. -/

/-- Failing input for claim C1: the database of
`test_get_recent_messages` (test_messages.py 71-90) — four messages
between alice and bob, message 3 addressed to alice, all unread. -/
def dbRead : DB :=
  { accounts := [⟨"alice", "h1", false⟩, ⟨"bob", "h2", false⟩],
    messages :=
      [⟨1, "alice", "bob", "Message 1", 0, true⟩,
       ⟨2, "alice", "bob", "Message 2", 1, true⟩,
       ⟨3, "bob", "alice", "Message 3", 2, true⟩,
       ⟨4, "alice", "bob", "Message 4", 3, true⟩],
    nextId := 5, clock := 4 }

/-- C1: at the failing input, `get_recent_messages` does fetch the most
recent `limit` messages of the conversation oldest-first and marks the one
fetched requester-addressed message (id 3) read — but its value is the
message list alone; the count of messages just marked read (1 here, which
its own tests and all three protocol handlers unpack as a first tuple
component) is not returned. -/
theorem read_marks_but_returns_no_count :
    (get_recent_messages dbRead "alice" "bob" (-1) 3).2.map (fun m => m.id) =
      [2, 3, 4] ∧
    ((get_recent_messages dbRead "alice" "bob" (-1) 3).2.filter
      (fun m => m.recipient == "alice")).map (fun m => m.id) = [3] ∧
    (get_recent_messages dbRead "alice" "bob" (-1) 3).1.messages =
      [⟨1, "alice", "bob", "Message 1", 0, true⟩,
       ⟨2, "alice", "bob", "Message 2", 1, true⟩,
       ⟨3, "bob", "alice", "Message 3", 2, false⟩,
       ⟨4, "alice", "bob", "Message 4", 3, true⟩] := by
  decide

/-- Failing input for claim C3: alice is registered with hash "hash1" and
nobody is active. -/
def stJson : ServerState :=
  ⟨{ accounts := [⟨"alice", "hash1", false⟩], messages := [],
     nextId := 1, clock := 0 }, []⟩

/-- C3: a JSON-surface Login with a wrong password is answered with the
1.0 custom-format frame `"1.0 ERROR 3"`, not with the 2.0 JSON ERROR frame
that `wrap_message` (the module's own canonical encoder) would produce. -/
theorem json_login_error_uses_custom_frame :
    json_handle_login stJson ["alice", "wrong"] = "1.0 ERROR 3" ∧
    wrap_message "ERROR" [JVal.jn WRONG_PASS] =
      "2.0 \x7b\"opcode\": \"ERROR\", \"data\": [3]\x7d" ∧
    json_handle_login stJson ["alice", "wrong"] ≠
      wrap_message "ERROR" [JVal.jn WRONG_PASS] ∧
    strStartsWith (json_handle_login stJson ["alice", "wrong"]) "2.0" = false := by
  decide

/-- Failing input for claim C4: only alice has an account row. -/
def stNoRow : ServerState :=
  ⟨{ accounts := [⟨"alice", "h1", false⟩], messages := [],
     nextId := 1, clock := 0 }, []⟩

/-- C4: a Send whose recipient has no account row makes
`verify_valid_recipient` subscript a `None` row (a raised `TypeError`,
embedded as `none`/`exn`); the exception escapes `handle_send_message` and
the whole `service_connection` frame-processing path, which wraps no
try/except around it. -/
theorem send_to_unknown_recipient_raises :
    verify_valid_recipient stNoRow.db "ghost" = none ∧
    handle_send_message stNoRow ["alice", "ghost", "hi"] = PyResult.exn ∧
    service_parsed stNoRow 0 "1.0" "SEND" ["alice", "ghost", "hi"] =
      PyResult.exn := by
  decide

/-- Counterexample input for claim C7: sender "a" wrote to "r" at time 0
(still unread) and at time 2 (already read); sender "b" wrote at time 1
(still unread). -/
def dbConv : DB :=
  { accounts := [⟨"r", "h", false⟩, ⟨"a", "h", false⟩, ⟨"b", "h", false⟩],
    messages :=
      [⟨1, "a", "r", "m1", 0, true⟩,
       ⟨2, "b", "r", "m2", 1, true⟩,
       ⟨3, "a", "r", "m3", 2, false⟩],
    nextId := 4, clock := 3 }

/-- C7 counterexample: peer "b" has the more recent unread activity
(time 1 against time 0), yet the summary lists "a" first, because the code
orders by `MAX(timestamp)` over all of the peer's messages, read or
unread, and "a" sent a later, already-read message. -/
theorem conversations_ignore_unread_recency :
    get_conversations dbConv "r" = [("a", 1), ("b", 1)] ∧
    lastUnreadTime dbConv "r" "a" < lastUnreadTime dbConv "r" "b" := by
  decide

/-- C2: a Login for a username already bound in the active-client registry
is answered with `1.0 ERROR` carrying `USER_LOGGED_ON` (= 8, §spec), the
registry is untouched (the error response keeps `service_connection` from
re-binding the username), and no push is attempted. -/
theorem login_second_session_rejected (st : ServerState) (sock : Nat)
    (u p : String) (rest : List String) (h : isActive st u = true) :
    service_parsed st sock "1.0" "LOGIN" (u :: p :: rest) =
      .ok (st, some ("1.0 ERROR " ++ toString USER_LOGGED_ON), []) ∧
    USER_LOGGED_ON = 8 := by
  refine ⟨?_, rfl⟩
  have hs : ("1.0 ERROR " ++ toString USER_LOGGED_ON) = "1.0 ERROR 8" := by
    decide
  rw [hs]
  have hl : handle_login st (u :: p :: rest) = "1.0 ERROR 8" := by
    unfold handle_login
    simp [h]
    decide
  have hp : process_parsed st "1.0" "LOGIN" (u :: p :: rest) =
      .ok (st, some "1.0 ERROR 8", []) := by
    unfold process_parsed
    simp [hl, SUPPORTED_VERSIONS]
  unfold service_parsed
  rw [hp]
  have hsw : strStartsWith "1.0 ERROR 8" "1.0 ERROR" = true := by decide
  simp [hsw]

def stLoginW : ServerState :=
  ⟨{ accounts := [⟨"alice", "hash1", false⟩], messages := [],
     nextId := 1, clock := 0 }, [("alice", 7)]⟩

/-- Witness for C2: alice is active on sink 7; a second Login on sink 9
with the correct password is refused with error 8 and the registry keeps
the first entry. -/
theorem login_second_session_rejected_witness :
    isActive stLoginW "alice" = true ∧
    (service_parsed stLoginW 9 "1.0" "LOGIN" ["alice", "hash1"] =
      .ok (stLoginW, some ("1.0 ERROR " ++ toString USER_LOGGED_ON), []) ∧
     USER_LOGGED_ON = 8) :=
  ⟨by decide, login_second_session_rejected stLoginW 9 "alice" "hash1" []
    (by decide)⟩

/-- C5: for a recipient with an account row, Send on a deactivated account
performs no Store write and acknowledges with msg_id -1; otherwise it
persists the message with `unread = true` under the next Store-assigned
id, acknowledges with that id, and attempts a `PUSH_MSG` push exactly when
the recipient is in the active-client registry. -/
theorem send_message_contract (st : ServerState) (s r : String)
    (rest : List String) (acc : Account)
    (h : lookupAccount st.db r = some acc) :
    (acc.deactivated = true →
      handle_send_message st (s :: r :: rest) =
        .ok (st, "1.0 ACK -1",
          if isActive st r then
            [⟨r, "1.0 PUSH_MSG " ++ s ++ " -1 \n"⟩]
          else [])) ∧
    (acc.deactivated = false →
      handle_send_message st (s :: r :: rest) =
        .ok ({ st with db := { st.db with
                 messages := st.db.messages ++
                   [⟨st.db.nextId, s, r, String.intercalate " " rest,
                     st.db.clock, true⟩],
                 nextId := st.db.nextId + 1,
                 clock := st.db.clock + 1 } },
             "1.0 ACK " ++ toString st.db.nextId,
             if isActive st r then
               [⟨r, "1.0 PUSH_MSG " ++ s ++ " " ++ toString st.db.nextId ++
                   " " ++ String.intercalate " " rest ++ "\n"⟩]
             else [])) := by
  constructor <;> intro hd
  · have hv : verify_valid_recipient st.db r = some 0 := by
      simp [verify_valid_recipient, h, hd]
    unfold handle_send_message
    simp only [List.getD_cons_zero, List.getD_cons_succ, hv]
    simp [store_message, String.append_assoc]
    rw [show ((" " : String) ++ (toString (-1 : Int) ++ " \n")) = " -1 \n" from
      by decide]
    constructor
    · decide
    · rfl
  · have hv : verify_valid_recipient st.db r = some 1 := by
      simp [verify_valid_recipient, h, hd]
    unfold handle_send_message
    simp only [List.getD_cons_zero, List.getD_cons_succ, hv]
    simp [store_message, String.append_assoc, isActive]

def stSendW : ServerState :=
  ⟨{ accounts := [⟨"alice", "h1", false⟩, ⟨"bob", "h2", false⟩],
     messages := [], nextId := 1, clock := 0 }, [("bob", 3)]⟩

/-- Witness for C5: alice sends "hi" to active, non-deactivated bob; the
message is stored under id 1 unread, the ACK carries 1, and a push goes to
bob. -/
theorem send_message_contract_witness :
    lookupAccount stSendW.db "bob" = some ⟨"bob", "h2", false⟩ ∧
    ((Account.mk "bob" "h2" false).deactivated = false →
      handle_send_message stSendW ["alice", "bob", "hi"] =
        .ok ({ stSendW with db := { stSendW.db with
                 messages := stSendW.db.messages ++
                   [⟨stSendW.db.nextId, "alice", "bob",
                     String.intercalate " " ["hi"], stSendW.db.clock, true⟩],
                 nextId := stSendW.db.nextId + 1,
                 clock := stSendW.db.clock + 1 } },
             "1.0 ACK " ++ toString stSendW.db.nextId,
             if isActive stSendW "bob" then
               [⟨"bob", "1.0 PUSH_MSG " ++ "alice" ++ " " ++
                   toString stSendW.db.nextId ++ " " ++
                   String.intercalate " " ["hi"] ++ "\n"⟩]
             else [])) :=
  ⟨by decide,
   (send_message_contract stSendW "alice" "bob" ["hi"] ⟨"bob", "h2", false⟩
     (by decide)).2⟩

/-- C6: deleting an existing message id answers `DEL_MSG` with the tuple
(id, original sender, was-unread flag), removes the row, and pushes the
same frame to the message's recipient exactly when that recipient is
active; repeating the deletion on the resulting state answers
`ERROR ID_DNE` and changes nothing. -/
theorem delete_message_contract (st : ServerState) (idStr : String)
    (id : Int) (m : Message)
    (hparse : pyInt? idStr = some id)
    (hfind : st.db.messages.find? (fun x => x.id == id) = some m)
    (hr : m.recipient ≠ "") :
    handle_delete_messages st [idStr] =
      .ok ({ st with db := { st.db with
               messages := st.db.messages.filter (fun x => !(x.id == id)) } },
           "1.0 DEL_MSG " ++ toString id ++ " " ++ m.sender ++ " " ++
             toString (if m.unread then 1 else 0),
           if isActive st m.recipient then
             [⟨m.recipient, "1.0 DEL_MSG " ++ toString id ++ " " ++ m.sender ++
                 " " ++ toString (if m.unread then 1 else 0)⟩]
           else []) ∧
    handle_delete_messages
        { st with db := { st.db with
            messages := st.db.messages.filter (fun x => !(x.id == id)) } }
        [idStr] =
      .ok ({ st with db := { st.db with
               messages := st.db.messages.filter (fun x => !(x.id == id)) } },
           "1.0 ERROR " ++ toString ID_DNE, []) := by
  have hnone : (st.db.messages.filter (fun x => !(x.id == id))).find?
      (fun x => x.id == id) = none := by
    rw [List.find?_eq_none]
    intro x hx
    have := (List.mem_filter.mp hx).2
    simp_all
  constructor
  · unfold handle_delete_messages
    simp only [List.getD_cons_zero, hparse]
    unfold delete_message
    rw [hfind]
    simp [hr, isActive]
  · unfold handle_delete_messages
    simp only [List.getD_cons_zero, hparse]
    unfold delete_message
    rw [hnone]

def stDelW : ServerState :=
  ⟨{ accounts := [⟨"alice", "h1", false⟩, ⟨"bob", "h2", false⟩],
     messages := [⟨1, "alice", "bob", "bye", 0, true⟩],
     nextId := 2, clock := 1 }, [("bob", 4)]⟩

/-- Witness for C6: message 1 from alice to active bob is deleted once
(answer and push carry (1, alice, unread)), and a second deletion of id 1
answers error 7. -/
theorem delete_message_contract_witness :
    pyInt? "1" = some 1 ∧
    (handle_delete_messages stDelW ["1"] =
      .ok ({ stDelW with db := { stDelW.db with
               messages := stDelW.db.messages.filter (fun x => !(x.id == 1)) } },
           "1.0 DEL_MSG " ++ toString (1 : Int) ++ " " ++
             (Message.mk 1 "alice" "bob" "bye" 0 true).sender ++ " " ++
             toString (if (Message.mk 1 "alice" "bob" "bye" 0 true).unread
               then 1 else 0),
           if isActive stDelW (Message.mk 1 "alice" "bob" "bye" 0 true).recipient
           then
             [⟨(Message.mk 1 "alice" "bob" "bye" 0 true).recipient,
               "1.0 DEL_MSG " ++ toString (1 : Int) ++ " " ++
                 (Message.mk 1 "alice" "bob" "bye" 0 true).sender ++ " " ++
                 toString (if (Message.mk 1 "alice" "bob" "bye" 0 true).unread
                   then 1 else 0)⟩]
           else []) ∧
     handle_delete_messages
        { stDelW with db := { stDelW.db with
            messages := stDelW.db.messages.filter (fun x => !(x.id == 1)) } }
        ["1"] =
      .ok ({ stDelW with db := { stDelW.db with
               messages := stDelW.db.messages.filter (fun x => !(x.id == 1)) } },
           "1.0 ERROR " ++ toString ID_DNE, [])) :=
  ⟨by decide,
   delete_message_contract stDelW "1" 1 ⟨1, "alice", "bob", "bye", 0, true⟩
     (by decide) (by decide) (by decide)⟩

/-- C9: a `REC_MSG` acknowledgement produces no response frame and no
error: when the id exists the message's unread flag is cleared (nothing
else changes), and when it does not exist the database is left exactly as
it was. -/
theorem ack_receipt_silent (st : ServerState) (sock : Nat) (idStr : String)
    (id : Int) (hparse : pyInt? idStr = some id) :
    service_parsed st sock "1.0" "REC_MSG" [idStr] =
      .ok ({ st with db := mark_message_as_read st.db id }, none, []) ∧
    ((st.db.messages.find? (fun m => m.id == id)).isSome →
      (mark_message_as_read st.db id).messages =
        st.db.messages.map (fun m =>
          if m.id == id then { m with unread := false } else m) ∧
      (mark_message_as_read st.db id).accounts = st.db.accounts) ∧
    ((st.db.messages.find? (fun m => m.id == id)) = none →
      mark_message_as_read st.db id = st.db) := by
  refine ⟨?_, ?_, ?_⟩
  · unfold service_parsed process_parsed handle_received_message
    simp [hparse, SUPPORTED_VERSIONS]
  · intro h
    unfold mark_message_as_read
    simp [h]
  · intro h
    unfold mark_message_as_read
    simp [h]

def stAckW : ServerState :=
  ⟨{ accounts := [⟨"a", "h", false⟩, ⟨"b", "h", false⟩],
     messages := [⟨1, "a", "b", "x", 0, true⟩], nextId := 2, clock := 1 }, []⟩

/-- Witness for C9: acknowledging message 1 clears its unread flag with no
response; the instantiated no-op branch is carried along. -/
theorem ack_receipt_silent_witness :
    pyInt? "1" = some 1 ∧
    (service_parsed stAckW 0 "1.0" "REC_MSG" ["1"] =
      .ok ({ stAckW with db := mark_message_as_read stAckW.db 1 }, none, []) ∧
    ((stAckW.db.messages.find? (fun m => m.id == 1)).isSome →
      (mark_message_as_read stAckW.db 1).messages =
        stAckW.db.messages.map (fun m =>
          if m.id == 1 then { m with unread := false } else m) ∧
      (mark_message_as_read stAckW.db 1).accounts = stAckW.db.accounts) ∧
    ((stAckW.db.messages.find? (fun m => m.id == 1)) = none →
      mark_message_as_read stAckW.db 1 = stAckW.db)) :=
  ⟨by decide, ack_receipt_silent stAckW 0 "1" 1 (by decide)⟩

/-- C10: DeleteAccount on an existing account answers the success frame
`DEL_ACC`; repeating it on the already-deactivated account answers the
same success (never `USER_DNE`), the row is retained with `deactivated`
set, and the state after the second call is exactly the state after the
first. -/
theorem delete_account_idempotent (st : ServerState) (u : String)
    (acc : Account) (h : lookupAccount st.db u = some acc) :
    ∃ st1, handle_delete_account st [u] = (st1, "1.0 DEL_ACC", []) ∧
      handle_delete_account st1 [u] = (st1, "1.0 DEL_ACC", []) ∧
      lookupAccount st1.db u = some { acc with deactivated := true } ∧
      (deactivate_account st1.db u).2 = SUCCESS ∧
      st1.db.accounts.length = st.db.accounts.length ∧
      st1.db.messages = st.db.messages := by
  obtain ⟨⟨accs, msgs, nid, clk⟩, act⟩ := st
  have husr : acc.username = u := by
    have := List.find?_some h
    simpa using this
  have hpf : ((fun a : Account => a.username == u) ∘ (fun a : Account =>
      if a.username == u then { a with deactivated := true } else a)) =
      (fun a : Account => a.username == u) := by
    funext a
    by_cases hc : a.username = u <;> simp [hc]
  have hlook1 : lookupAccount
      ⟨accs.map (fun a =>
        if a.username == u then { a with deactivated := true } else a),
        msgs, nid, clk⟩ u = some { acc with deactivated := true } := by
    unfold lookupAccount at h ⊢
    simp only at h ⊢
    rw [List.find?_map, hpf, h]
    simp [husr]
  refine ⟨⟨⟨accs.map (fun a =>
      if a.username == u then { a with deactivated := true } else a),
      msgs, nid, clk⟩, act.filter (fun e => e.1 != u)⟩, ?_, ?_, ?_, ?_, ?_, ?_⟩
  · simp only [handle_delete_account, deactivate_account, List.getD_cons_zero]
    rw [h]
    simp [SUCCESS, remove_active_client]
  · simp only [handle_delete_account, deactivate_account, List.getD_cons_zero]
    rw [hlook1]
    have hf : (fun a : Account =>
        if a.username == u then { a with deactivated := true } else a) ∘
        (fun a : Account =>
          if a.username == u then { a with deactivated := true } else a) =
        (fun a : Account =>
          if a.username == u then { a with deactivated := true } else a) := by
      funext a
      by_cases hc : a.username = u <;> simp [hc]
    simp [SUCCESS, remove_active_client, List.map_map, hf, List.filter_filter]
    intro a ha hau
    by_cases hc : a.username = u <;> simp_all
  · exact hlook1
  · unfold deactivate_account
    rw [hlook1]
  · simp
  · rfl

def stDelAccW : ServerState :=
  ⟨{ accounts := [⟨"carol", "h3", false⟩], messages := [],
     nextId := 1, clock := 0 }, [("carol", 5)]⟩

/-- Witness for C10: carol's account is deleted twice; both calls succeed
and the second leaves the state of the first untouched. -/
theorem delete_account_idempotent_witness :
    lookupAccount stDelAccW.db "carol" = some ⟨"carol", "h3", false⟩ ∧
    (∃ st1, handle_delete_account stDelAccW ["carol"] =
        (st1, "1.0 DEL_ACC", []) ∧
      handle_delete_account st1 ["carol"] = (st1, "1.0 DEL_ACC", []) ∧
      lookupAccount st1.db "carol" =
        some { Account.mk "carol" "h3" false with deactivated := true } ∧
      (deactivate_account st1.db "carol").2 = SUCCESS ∧
      st1.db.accounts.length = stDelAccW.db.accounts.length ∧
      st1.db.messages = stDelAccW.db.messages) :=
  ⟨by decide,
   delete_account_idempotent stDelAccW "carol" ⟨"carol", "h3", false⟩
     (by decide)⟩

/-! No handler ever decreases the `AUTOINCREMENT` counter; the following
lemmas track it through every operation of the custom surface. -/

theorem nextId_register (db : DB) (u p : String) :
    (register_account db u p).1.nextId = db.nextId := by
  unfold register_account
  split <;> rfl

theorem nextId_delete (db : DB) (id : Int) :
    (delete_message db id).1.nextId = db.nextId := by
  unfold delete_message
  split <;> rfl

theorem nextId_handle_create (st : ServerState) (args : List String) :
    (handle_create st args).1.db.nextId = st.db.nextId := by
  simp only [handle_create]
  split
  · simp [nextId_register]
  · rfl

theorem nextId_handle_send (st : ServerState) (args : List String)
    (r : ServerState × String × List Push)
    (h : handle_send_message st args = .ok r) :
    st.db.nextId ≤ r.1.db.nextId := by
  unfold handle_send_message at h
  simp only [] at h
  cases hv : verify_valid_recipient st.db (args.getD 1 "") with
  | none => rw [hv] at h; simp at h
  | some valid =>
    rw [hv] at h
    simp only [] at h
    cases h
    dsimp only
    split
    · dsimp only [store_message]
      omega
    · exact le_refl _

theorem nextId_handle_delmsgs (st : ServerState) (args : List String)
    (r : ServerState × String × List Push)
    (h : handle_delete_messages st args = .ok r) :
    r.1.db.nextId = st.db.nextId := by
  unfold handle_delete_messages at h
  simp only [] at h
  cases hp : pyInt? (args.getD 0 "") with
  | none => rw [hp] at h; simp at h
  | some id =>
    rw [hp] at h
    simp only [] at h
    have hn := nextId_delete st.db id
    split at h
    · split at h
      · cases h; simpa using hn
      · cases h; simpa using hn
    · cases h; simpa using hn

theorem nextId_handle_delacc (st : ServerState) (args : List String) :
    (handle_delete_account st args).1.db.nextId = st.db.nextId := by
  simp only [handle_delete_account, deactivate_account]
  split
  · split
    · simp [remove_active_client]
    · rfl
  · split
    · simp [remove_active_client]
    · rfl

theorem nextId_handle_rec (st : ServerState) (args : List String)
    (r : ServerState × Option String × List Push)
    (h : handle_received_message st args = .ok r) :
    r.1.db.nextId = st.db.nextId := by
  unfold handle_received_message at h
  cases hp : pyInt? (args.getD 0 "") with
  | none => rw [hp] at h; simp at h
  | some id =>
    rw [hp] at h
    simp only [] at h
    cases h
    dsimp only
    unfold mark_message_as_read
    split <;> rfl

theorem nextId_le_process (st : ServerState) (v c : String)
    (args : List String) (q : ServerState × Option String × List Push)
    (h : process_parsed st v c args = .ok q) :
    st.db.nextId ≤ q.1.db.nextId := by
  unfold process_parsed at h
  split at h
  · cases h; exact le_refl _
  split at h
  · cases h
    exact le_of_eq (nextId_handle_create st args).symm
  split at h
  · cases h; exact le_refl _
  split at h
  · simp at h
  split at h
  · cases hs : handle_send_message st args with
    | exn => rw [hs] at h; simp [PyResult.map] at h
    | ok r =>
      rw [hs] at h
      simp only [PyResult.map] at h
      have hr := nextId_handle_send st args r hs
      cases h
      exact hr
  split at h
  · cases hd : handle_delete_messages st args with
    | exn => rw [hd] at h; simp [PyResult.map] at h
    | ok r =>
      rw [hd] at h
      simp only [PyResult.map] at h
      have hr := nextId_handle_delmsgs st args r hd
      cases h
      exact le_of_eq hr.symm
  split at h
  · cases h
    exact le_of_eq (nextId_handle_delacc st args).symm
  split at h
  · cases hr : handle_received_message st args with
    | exn => rw [hr] at h; simp at h
    | ok r =>
      rw [hr] at h
      have he := nextId_handle_rec st args r hr
      cases h
      exact le_of_eq he.symm
  · cases h; exact le_refl _

theorem db_add_active_client (st : ServerState) (u : String) (sock : Nat) :
    (add_active_client st u sock).db = st.db := by
  unfold add_active_client
  split <;> rfl

theorem nextId_le_service (st : ServerState) (sock : Nat) (v c : String)
    (args : List String) (res : ServerState × Option String × List Push)
    (h : service_parsed st sock v c args = .ok res) :
    st.db.nextId ≤ res.1.db.nextId := by
  unfold service_parsed at h
  cases hp : process_parsed st v c args with
  | exn => rw [hp] at h; simp at h
  | ok q =>
    rw [hp] at h
    simp only [] at h
    have hq := nextId_le_process st v c args q hp
    split at h
    · cases h
      simpa [db_add_active_client] using hq
    · cases h
      exact hq

theorem nextId_le_runOp (st : ServerState) (op : Op) :
    st.db.nextId ≤ (runOp st op).db.nextId := by
  unfold runOp
  cases hsv : service_parsed st op.sock "1.0" op.cmd op.args with
  | exn => exact le_refl _
  | ok res => exact nextId_le_service st op.sock "1.0" op.cmd op.args res hsv

theorem nextId_le_runOps (st : ServerState) (ops : List Op) :
    st.db.nextId ≤ (runOps st ops).db.nextId := by
  induction ops generalizing st with
  | nil => exact le_refl _
  | cons op rest ih =>
    exact le_trans (nextId_le_runOp st op) (ih (runOp st op))

theorem handle_send_ok (st : ServerState) (s r : String) (rest : List String)
    (acc : Account) (h : lookupAccount st.db r = some acc)
    (hd : acc.deactivated = false) :
    handle_send_message st (s :: r :: rest) =
      .ok (afterSend st s r rest, "1.0 ACK " ++ toString st.db.nextId,
        if isActive st r then
          [⟨r, "1.0 PUSH_MSG " ++ s ++ " " ++ toString st.db.nextId ++ " " ++
              String.intercalate " " rest ++ "\n"⟩]
        else []) := by
  have hv : verify_valid_recipient st.db r = some 1 := by
    simp [verify_valid_recipient, h, hd]
  unfold handle_send_message
  simp only [List.getD_cons_zero, List.getD_cons_succ, hv]
  simp [afterSend, store_message, String.append_assoc, isActive]

/-- C8: across the server's lifetime, a Send to a non-deactivated
recipient is acknowledged with the current `AUTOINCREMENT` value, and any
later such Send — with any operations, message deletions included, run in
between — is acknowledged with a strictly greater id. -/
theorem send_ids_strictly_increase (st : ServerState) (s1 r1 s2 r2 : String)
    (rest1 rest2 : List String) (ops : List Op) (a1 a2 : Account)
    (h1 : lookupAccount st.db r1 = some a1) (h1d : a1.deactivated = false)
    (h2 : lookupAccount (runOps (afterSend st s1 r1 rest1) ops).db r2 = some a2)
    (h2d : a2.deactivated = false) :
    (∃ p1, handle_send_message st (s1 :: r1 :: rest1) =
      .ok (afterSend st s1 r1 rest1, "1.0 ACK " ++ toString st.db.nextId, p1)) ∧
    (∃ p2, handle_send_message (runOps (afterSend st s1 r1 rest1) ops)
        (s2 :: r2 :: rest2) =
      .ok (afterSend (runOps (afterSend st s1 r1 rest1) ops) s2 r2 rest2,
        "1.0 ACK " ++
          toString (runOps (afterSend st s1 r1 rest1) ops).db.nextId, p2)) ∧
    st.db.nextId < (runOps (afterSend st s1 r1 rest1) ops).db.nextId := by
  refine ⟨⟨_, handle_send_ok st s1 r1 rest1 a1 h1 h1d⟩,
    ⟨_, handle_send_ok _ s2 r2 rest2 a2 h2 h2d⟩, ?_⟩
  have h3 : (afterSend st s1 r1 rest1).db.nextId = st.db.nextId + 1 := rfl
  have h4 := nextId_le_runOps (afterSend st s1 r1 rest1) ops
  omega

def stSeqW : ServerState :=
  ⟨{ accounts := [⟨"alice", "h1", false⟩, ⟨"bob", "h2", false⟩],
     messages := [], nextId := 1, clock := 0 }, []⟩

/-- Witness for C8: alice sends to bob (id 1), the message is deleted in
between, and bob's reply still gets the strictly greater id 2. -/
theorem send_ids_strictly_increase_witness :
    lookupAccount stSeqW.db "bob" = some ⟨"bob", "h2", false⟩ ∧
    lookupAccount (runOps (afterSend stSeqW "alice" "bob" ["hi"])
        [⟨"DEL_MSG", ["1"], 0⟩]).db "alice" = some ⟨"alice", "h1", false⟩ ∧
    ((∃ p1, handle_send_message stSeqW ["alice", "bob", "hi"] =
      .ok (afterSend stSeqW "alice" "bob" ["hi"],
        "1.0 ACK " ++ toString stSeqW.db.nextId, p1)) ∧
    (∃ p2, handle_send_message
        (runOps (afterSend stSeqW "alice" "bob" ["hi"]) [⟨"DEL_MSG", ["1"], 0⟩])
        ["bob", "alice", "yo"] =
      .ok (afterSend
          (runOps (afterSend stSeqW "alice" "bob" ["hi"]) [⟨"DEL_MSG", ["1"], 0⟩])
          "bob" "alice" ["yo"],
        "1.0 ACK " ++ toString (runOps (afterSend stSeqW "alice" "bob" ["hi"])
          [⟨"DEL_MSG", ["1"], 0⟩]).db.nextId, p2)) ∧
    stSeqW.db.nextId < (runOps (afterSend stSeqW "alice" "bob" ["hi"])
      [⟨"DEL_MSG", ["1"], 0⟩]).db.nextId) :=
  ⟨by decide, by decide,
   send_ids_strictly_increase stSeqW "alice" "bob" "bob" "alice" ["hi"] ["yo"]
     [⟨"DEL_MSG", ["1"], 0⟩] ⟨"bob", "h2", false⟩ ⟨"alice", "h1", false⟩
     (by decide) rfl (by decide) rfl⟩

theorem mem_sendersTo {db : DB} {r s : String} :
    s ∈ sendersTo db r ↔ ∃ m ∈ db.messages, m.recipient = r ∧ m.sender = s := by
  simp only [sendersTo, List.mem_dedup, List.mem_map, List.mem_filter,
    beq_iff_eq]
  constructor
  · rintro ⟨m, ⟨hm, hr⟩, hs⟩
    exact ⟨m, hm, hr, hs⟩
  · rintro ⟨m, hm, hr, hs⟩
    exact ⟨m, ⟨hm, hr⟩, hs⟩

theorem unreadCount_pos_mem {db : DB} {r s : String}
    (h : 0 < unreadCount db r s) : s ∈ sendersTo db r := by
  unfold unreadCount at h
  rcases List.exists_mem_of_length_pos h with ⟨m, hm⟩
  have hm1 := List.mem_filter.mp hm
  have hm2 := List.mem_filter.mp hm1.1
  apply mem_sendersTo.mpr
  refine ⟨m, hm2.1, ?_⟩
  have := hm2.2
  simp only [Bool.and_eq_true, beq_iff_eq] at this
  exact this

theorem mem_unreadConvos {db : DB} {r : String} {t : String × Nat × Nat} :
    t ∈ unreadConvos db r ↔ ∃ s, s ∈ sendersTo db r ∧
      0 < unreadCount db r s ∧
      t = (s, unreadCount db r s, lastMsgTime db r s) := by
  unfold unreadConvos
  rw [mem_sortByKey]
  rw [List.mem_filterMap]
  constructor
  · rintro ⟨s, hs, hf⟩
    rw [Option.ite_none_right_eq_some] at hf
    exact ⟨s, hs, hf.1, (Option.some_inj.mp hf.2).symm⟩
  · rintro ⟨s, hs, hpos, rfl⟩
    exact ⟨s, hs, by rw [Option.ite_none_right_eq_some]; exact ⟨hpos, rfl⟩⟩

/-- C7 (amended): the conversation summary is the unread-bearing peers —
each paired with its positive unread count, ordered descending by the
timestamp of the peer's most recent message to the user, read or unread —
followed by every other known account (all accounts except the user and
the unread-bearing peers) in alphabetical order, each with count zero. -/
theorem conversations_summary_order (db : DB) (r : String) :
    ∃ U O, get_conversations db r = U ++ O ∧
      (∀ x ∈ U, x.2 = unreadCount db r x.1 ∧ 0 < x.2) ∧
      (∀ s : String, (∃ c, (s, c) ∈ U) ↔ 0 < unreadCount db r s) ∧
      U.Pairwise (fun a b => lastMsgTime db r b.1 ≤ lastMsgTime db r a.1) ∧
      (∀ x ∈ O, x.2 = 0) ∧
      (∀ s : String, (∃ c, (s, c) ∈ O) ↔
        ((∃ a ∈ db.accounts, a.username = s) ∧ s ≠ r ∧
          unreadCount db r s = 0)) ∧
      O.Pairwise (fun a b => a.1 ≤ b.1) := by
  refine ⟨(unreadConvos db r).map
      (fun t : String × Nat × Nat => (t.1, t.2.1)),
    (sortByKey (fun a : Account => a.username)
      (db.accounts.filter (fun a =>
        a.username != r &&
        !(((unreadConvos db r).map
            (fun t : String × Nat × Nat => t.1)).contains a.username)))).map
      (fun a : Account => (a.username, 0)),
    ?_, ?_, ?_, ?_, ?_, ?_, ?_⟩
  · rfl
  · intro x hx
    rcases List.mem_map.mp hx with ⟨t, ht, rfl⟩
    rcases mem_unreadConvos.mp ht with ⟨s, _, hpos, rfl⟩
    exact ⟨rfl, hpos⟩
  · intro s
    constructor
    · rintro ⟨c, hc⟩
      rcases List.mem_map.mp hc with ⟨t, ht, heq⟩
      rcases mem_unreadConvos.mp ht with ⟨s', _, hpos, rfl⟩
      cases heq
      exact hpos
    · intro hpos
      exact ⟨unreadCount db r s, List.mem_map.mpr
        ⟨(s, unreadCount db r s, lastMsgTime db r s),
         mem_unreadConvos.mpr ⟨s, unreadCount_pos_mem hpos, hpos, rfl⟩, rfl⟩⟩
  · rw [List.pairwise_map]
    have hp : (unreadConvos db r).Pairwise
        (fun a b => OrderDual.toDual a.2.2 ≤ OrderDual.toDual b.2.2) :=
      pairwise_sortByKey _ _
    refine List.Pairwise.imp_of_mem ?_ hp
    intro a b ha hb hab
    rcases mem_unreadConvos.mp ha with ⟨s1, _, _, rfl⟩
    rcases mem_unreadConvos.mp hb with ⟨s2, _, _, rfl⟩
    simpa using hab
  · intro x hx
    rcases List.mem_map.mp hx with ⟨a, _, rfl⟩
    rfl
  · intro s
    constructor
    · rintro ⟨c, hc⟩
      rcases List.mem_map.mp hc with ⟨a, ha, heq⟩
      rw [mem_sortByKey] at ha
      rcases List.mem_filter.mp ha with ⟨hmem, hcond⟩
      cases heq
      simp only [Bool.and_eq_true, bne_iff_ne, Bool.not_eq_true'] at hcond
      refine ⟨⟨a, hmem, rfl⟩, hcond.1, ?_⟩
      by_contra hne
      have hpos : 0 < unreadCount db r a.username := Nat.pos_of_ne_zero hne
      have hmm : a.username ∈ (unreadConvos db r).map (fun t => t.1) :=
        List.mem_map.mpr
          ⟨(a.username, unreadCount db r a.username,
             lastMsgTime db r a.username),
           mem_unreadConvos.mpr ⟨_, unreadCount_pos_mem hpos, hpos, rfl⟩, rfl⟩
      rw [← List.elem_iff] at hmm
      rw [List.contains] at hcond
      rw [hcond.2] at hmm
      cases hmm
    · rintro ⟨⟨a, ha, rfl⟩, hne, hzero⟩
      have hnotmem : a.username ∉ (unreadConvos db r).map (fun t => t.1) := by
        intro hmem
        rcases List.mem_map.mp hmem with ⟨t, ht, hts⟩
        rcases mem_unreadConvos.mp ht with ⟨s', _, hpos, rfl⟩
        dsimp only at hts
        rw [hts] at hpos
        omega
      refine ⟨0, List.mem_map.mpr ⟨a, ?_, rfl⟩⟩
      rw [mem_sortByKey]
      refine List.mem_filter.mpr ⟨ha, ?_⟩
      simp only [Bool.and_eq_true, bne_iff_ne, Bool.not_eq_true']
      refine ⟨hne, ?_⟩
      rw [List.contains]
      rw [← Bool.not_eq_true, List.elem_iff]
      exact hnotmem
  · rw [List.pairwise_map]
    exact List.Pairwise.imp (fun hab => hab)
      (pairwise_sortByKey (fun a : Account => a.username) _)
